import Mathlib

/-!
Verification development for the OPL image-converter scaling core:
a shallow embedding of the image-scaling subsystem
(base_scaler.py, scaling_manager.py, image_processor_enhanced.py,
algorithms/ps2_optimized.py and the thin per-kernel scaler wrappers)
and proofs of its specified properties.

The imaging-library primitives (PIL resampling kernels, the SHARPEN and
SMOOTH_MORE filters, the contrast and color enhancers, the numpy raster
conversion, file open and save) are external to the repository; they are
modelled as an abstract record of possibly-failing operations, and every
property is proved for all instantiations of that record.  Python floats
are modelled as exact rationals, Python int() on a nonnegative float as
the floor, and numpy round as round-half-to-even.  Exceptions are
modelled by Except.
-/

namespace OPL

/-- A pixel: 8-bit RGB channels, modelled as naturals. -/
abbrev Px := Nat × Nat × Nat

/-- An in-memory raster: width and height in pixels, a PIL mode string,
and a pixel lookup.  Out-of-range lookups are never observed by the
modelled operations. -/
structure Img where
  width : Nat
  height : Nat
  mode : String
  pix : Nat → Nat → Px

/-- Exceptions raised by the imaging primitives or by the repository code
(ZeroDivisionError, ValueError, library failures).  Each carries data
enough to recover the message str(e) used at the conversion boundary. -/
inductive Err where
  | zeroDivision : Err
  | valueError : String → Err
  | libraryError : String → Err
deriving DecidableEq, Repr

/-- Models str(e) for an exception, as used by convert_resize_image. -/
def Err.message : Err → String
  | .zeroDivision => "division by zero"
  | .valueError s => s
  | .libraryError s => s

/-- Models Image.new("RGB", (w, h), background): a solid-color canvas. -/
def imageNew (w h : Nat) (bg : Px) : Img :=
  ⟨w, h, "RGB", fun _ _ => bg⟩

/-- Models canvas.paste(content, (ox, oy)): composite content onto the
canvas with its top-left corner at (ox, oy); the canvas size and mode are
unchanged. -/
def paste (canvas content : Img) (ox oy : Nat) : Img :=
  { canvas with
    pix := fun x y =>
      if ox ≤ x ∧ x < ox + content.width ∧ oy ≤ y ∧ y < oy + content.height then
        content.pix (x - ox) (y - oy)
      else canvas.pix x y }

/-- The six PIL resampling kernels named by the repository. -/
inductive Kern where
  | nearest | bilinear | bicubic | box | hamming | lanczos
deriving DecidableEq, Repr

/-- The abstract imaging primitives the repository delegates to.  Every
field is a possibly-failing operation; the theorems below hold for every
instantiation. -/
structure Prims where
  /-- img.resize((w, h), kernel). -/
  resample : Kern → Img → Nat → Nat → Except Err Img
  /-- img.filter(ImageFilter.SHARPEN). -/
  sharpenF : Img → Except Err Img
  /-- img.filter(ImageFilter.SMOOTH_MORE). -/
  smoothMore : Img → Except Err Img
  /-- ImageEnhance.Contrast(img).enhance(factor). -/
  contrast : Img → ℚ → Except Err Img
  /-- ImageEnhance.Color(img).enhance(factor), the saturation boost. -/
  color : Img → ℚ → Except Err Img
  /-- The numpy boundary of the quantization step: np.array(img) together
  with Image.fromarray on the way back.  On success it yields the raster
  whose pixels the concrete quantization arithmetic below is applied to. -/
  toArray : Img → Except Err Img
  /-- img.convert("RGB"). -/
  convertRGB : Img → Except Err Img
  /-- Image.open(path). -/
  openImage : String → Except Err Img
  /-- img.save(path, "PNG", optimize=True). -/
  save : Img → String → Except Err Unit

/-- The content-size computation shared verbatim by
BaseScaler.scale_with_aspect and ImageProcessorEnhanced._resize_with_aspect:
aspect = img_width / img_height, target = target_width / target_height,
then (target_width, int(target_width / aspect)) when aspect > target,
else (int(target_height * aspect), target_height).  The float ratios are
modelled as exact rationals and int() on a nonnegative float as the
floor. -/
def contentSize (imgW imgH tw th : Nat) : Nat × Nat :=
  let ar : ℚ := (imgW : ℚ) / (imgH : ℚ)
  let tgt : ℚ := (tw : ℚ) / (th : ℚ)
  if ar > tgt then
    (tw, (⌊(tw : ℚ) / ar⌋).toNat)
  else
    ((⌊(th : ℚ) * ar⌋).toNat, th)

/-- BaseScaler.scale_with_aspect: compute the aspect-preserving content
size, resample the source to it with the designated scale function, and
composite the result centered onto a fresh canvas of the exact target
size filled with the background color.  A zero source height or zero
target height raises ZeroDivisionError in the ratio computation. -/
def scale_with_aspect (scaleFn : Img → Nat → Nat → Except Err Img)
    (image : Img) (target_width target_height : Nat) (background_color : Px) :
    Except Err Img :=
  if image.height = 0 ∨ target_height = 0 then .error .zeroDivision
  else
    match scaleFn image (contentSize image.width image.height target_width target_height).1
        (contentSize image.width image.height target_width target_height).2 with
    | .error e => .error e
    | .ok resized =>
        .ok (paste (imageNew target_width target_height background_color) resized
              ((target_width - (contentSize image.width image.height target_width target_height).1) / 2)
              ((target_height - (contentSize image.width image.height target_width target_height).2) / 2))

/-- Models numpy round(c / k) for naturals with k > 0: nearest integer,
ties to even (the IEEE rounding numpy uses). -/
def roundHalfEvenDiv (c k : Nat) : Nat :=
  let q := c / k
  let r := c % k
  if 2 * r < k then q
  else if k < 2 * r then q + 1
  else if q % 2 = 0 then q else q + 1

/-- The red-channel quantization np.round(r / 8) * 8 followed by the
uint8 store, which reduces the value modulo 256. -/
def quantR (c : Nat) : Nat := (roundHalfEvenDiv c 8 * 8) % 256

/-- The green-channel quantization np.round(g / 4) * 4 followed by the
uint8 store, which reduces the value modulo 256. -/
def quantG (c : Nat) : Nat := (roundHalfEvenDiv c 4 * 4) % 256

/-- The blue-channel quantization np.round(b / 8) * 8 followed by the
uint8 store, which reduces the value modulo 256. -/
def quantB (c : Nat) : Nat := (roundHalfEvenDiv c 8 * 8) % 256

/-- Per-pixel 5-6-5 quantization of step 6 of the PS2 pipeline. -/
def quantPx (p : Px) : Px := (quantR p.1, quantG p.2.1, quantB p.2.2)

/-- The pixel arithmetic of the quantization step applied to a whole
raster; Image.fromarray(..., "RGB") gives mode RGB. -/
def quantImg (i : Img) : Img :=
  ⟨i.width, i.height, "RGB", fun x y => quantPx (i.pix x y)⟩

/-- PS2OptimizedScaler.scale from algorithms/ps2_optimized.py: convert to
RGB if needed, sharpen, direct Lanczos resize to the exact target size,
contrast 1.1, saturation 1.15, SMOOTH_MORE, then the guarded 5-6-5
quantization whose failure returns the pre-quantization raster.  Steps 1
to 5 are unguarded here. -/
def ps2Scale (P : Prims) (image : Img) (target_width target_height : Nat) :
    Except Err Img := do
  let image ← if image.mode ≠ "RGB" then P.convertRGB image else pure image
  let s1 ← P.sharpenF image
  let s2 ← P.resample .lanczos s1 target_width target_height
  let s3 ← P.contrast s2 (11 / 10 : ℚ)
  let s4 ← P.color s3 (23 / 20 : ℚ)
  let s5 ← P.smoothMore s4
  match P.toArray s5 with
  | .ok a => pure (quantImg a)
  | .error _ => pure s5

/-- The scalers dictionary built by ScalingManager.__init__: the seven
registered method names, each mapped to the scale function of its scaler
class.  The six standard classes delegate to the resampling primitive
with their kernel (LanczosScaler carries a fixed unused lobe-size
parameter a = 3); ps2_optimized maps to the PS2 scaler. -/
def scalers (P : Prims) : List (String × (Img → Nat → Nat → Except Err Img)) :=
  [("lanczos", P.resample .lanczos),
   ("bicubic", P.resample .bicubic),
   ("bilinear", P.resample .bilinear),
   ("nearest", P.resample .nearest),
   ("box", P.resample .box),
   ("hamming", P.resample .hamming),
   ("ps2_optimized", ps2Scale P)]

/-- The seven registered method names, the string values of the
ScalingMethod enumeration. -/
def registeredMethods : List String :=
  ["lanczos", "bicubic", "bilinear", "nearest", "box", "hamming", "ps2_optimized"]

/-- The mutable state of the ScalingManager singleton: its default and
currently selected method. -/
structure Mgr where
  default_method : String
  current_method : String

/-- ScalingManager.__init__: the default method is lanczos and the
current method starts as the default. -/
def Mgr.init : Mgr := { default_method := "lanczos", current_method := "lanczos" }

/-- ScalingManager.set_scaling_method: accept and record the method when
it is a key of the scalers dictionary, otherwise report False and leave
the selection unchanged. -/
def set_scaling_method (P : Prims) (mgr : Mgr) (method : String) : Bool × Mgr :=
  if ((scalers P).lookup method).isSome then
    (true, { mgr with current_method := method })
  else (false, mgr)

/-- A sequence of set_scaling_method calls applied in order, used to
state the reachable-state invariant of the manager. -/
def applyMethods (P : Prims) (ms : List String) (mgr : Mgr) : Mgr :=
  ms.foldl (fun g m => (set_scaling_method P g m).2) mgr

/-- The body of the try block of ScalingManager.scale_image: look the
scaler up in the dictionary and run scale_with_aspect or scale according
to maintain_aspect.  The none case models the impossible KeyError; every
caller checks membership first. -/
def attemptScale (P : Prims) (m : String) (image : Img)
    (target_width target_height : Nat) (maintain_aspect : Bool) (bg : Px) :
    Except Err Img :=
  match (scalers P).lookup m with
  | some s =>
      if maintain_aspect then scale_with_aspect s image target_width target_height bg
      else s image target_width target_height
  | none => .error (.valueError "KeyError")

/-- Termination measure for the fallback recursion of scale_image: the
recursive call always names the default method explicitly. -/
def scaleFuel (mgr : Mgr) : Option String → Nat
  | some m => if m = mgr.default_method then 0 else 1
  | none => if mgr.current_method = mgr.default_method then 0 else 1

/-- The method-resolution prelude of ScalingManager.scale_image: use the
current selection when no method is passed, and substitute the default
for a method that is not a key of the scalers dictionary (the code also
logs a warning there). -/
def resolveMethod (P : Prims) (mgr : Mgr) (method? : Option String) : String :=
  let m0 := method?.getD mgr.current_method
  if ((scalers P).lookup m0).isSome then m0 else mgr.default_method

/-- ScalingManager.scale_image: resolve the optional method argument
against the current selection, substitute the default for an
unregistered method (with a logged warning), attempt the scaling, and on
an exception retry the whole call once with the default method when the
failed method is not already the default, else re-raise. -/
def scale_image (P : Prims) (mgr : Mgr) (image : Img)
    (target_width target_height : Nat) (method? : Option String)
    (maintain_aspect : Bool) (background_color : Px) : Except Err Img :=
  match attemptScale P (resolveMethod P mgr method?) image target_width target_height
      maintain_aspect background_color with
  | .ok r => .ok r
  | .error e =>
      if h : resolveMethod P mgr method? ≠ mgr.default_method then
        scale_image P mgr image target_width target_height (some mgr.default_method)
          maintain_aspect background_color
      else .error e
termination_by scaleFuel mgr method?
decreasing_by
  have hm : method?.getD mgr.current_method ≠ mgr.default_method := by
    intro hc
    apply h
    simp only [resolveMethod, hc, ite_self]
  cases method? with
  | none =>
      simp only [scaleFuel, if_true]
      rw [if_neg (by simpa using hm)]
      decide
  | some mname =>
      simp only [scaleFuel, if_true]
      rw [if_neg (by simpa using hm)]
      decide

/-- The slot-type dimension table ImageProcessorEnhanced.DIMENSIONS
(slot names as in the source; the spec names them cover, spine, back,
screenshot, background, disc, logo in the same order). -/
def DIMENSIONS : List (String × (Nat × Nat)) :=
  [("caratula", (140, 200)),
   ("borde", (18, 240)),
   ("contracaratula", (242, 344)),
   ("captura", (250, 168)),
   ("fondo", (640, 480)),
   ("disco", (128, 128)),
   ("logo", (300, 125))]

/-- ImageProcessorEnhanced.ALGORITHM_METHODS: the name-to-PIL-kernel
mapping used by the conversion pipeline for the six standard algorithms. -/
def ALGORITHM_METHODS : List (String × Kern) :=
  [("lanczos", .lanczos),
   ("bicubic", .bicubic),
   ("bilinear", .bilinear),
   ("nearest", .nearest),
   ("box", .box),
   ("hamming", .hamming)]

/-- ImageProcessorEnhanced._resize_with_aspect: the same arithmetic as
BaseScaler.scale_with_aspect with the background fixed to black and the
resampling primitive passed directly. -/
def resize_with_aspect (resize : Img → Nat → Nat → Except Err Img)
    (img : Img) (target_width target_height : Nat) : Except Err Img :=
  if img.height = 0 ∨ target_height = 0 then .error .zeroDivision
  else
    match resize img (contentSize img.width img.height target_width target_height).1
        (contentSize img.width img.height target_width target_height).2 with
    | .error e => .error e
    | .ok resized =>
        .ok (paste (imageNew target_width target_height (0, 0, 0)) resized
              ((target_width - (contentSize img.width img.height target_width target_height).1) / 2)
              ((target_height - (contentSize img.width img.height target_width target_height).2) / 2))

/-- The try-except wrapper of the individually guarded enhancement
steps: use the result on success, keep the unmodified-so-far raster on
an exception. -/
def skipOnError (r : Except Err Img) (orig : Img) : Img :=
  match r with
  | .ok x => x
  | .error _ => orig

/-- Step 2 of _resize_ps2_optimized: Lanczos resize through the
aspect-preserving path when maintain_aspect, else a direct resize to the
exact target size. -/
def ps2ResizeStep (P : Prims) (s1 : Img) (target_width target_height : Nat)
    (maintain_aspect : Bool) : Except Err Img :=
  if maintain_aspect then
    resize_with_aspect (P.resample .lanczos) s1 target_width target_height
  else P.resample .lanczos s1 target_width target_height

/-- ImageProcessorEnhanced._resize_ps2_optimized: sharpen, Lanczos resize
(aspect-preserving onto the black letterbox canvas when maintain_aspect,
else direct), then contrast 1.1 and saturation 1.15 each individually
guarded and skipped on failure, SMOOTH_MORE, and the guarded 5-6-5
quantization whose failure returns the pre-quantization raster. -/
def resize_ps2_optimized (P : Prims) (img : Img)
    (target_width target_height : Nat) (maintain_aspect : Bool) :
    Except Err Img := do
  let s1 ← P.sharpenF img
  let s2 ← ps2ResizeStep P s1 target_width target_height maintain_aspect
  let s3 := skipOnError (P.contrast s2 (11 / 10 : ℚ)) s2
  let s4 := skipOnError (P.color s3 (23 / 20 : ℚ)) s3
  let s5 ← P.smoothMore s4
  match P.toArray s5 with
  | .ok a => pure (quantImg a)
  | .error _ => pure s5

/-- The body of the try block of
ImageProcessorEnhanced.convert_resize_image: open, normalize to RGB,
resolve the slot dimensions (raising ValueError on an unknown slot,
whose table default is (0, 0)), scale with the named algorithm (unknown
names fall back to the Lanczos kernel), apply the optional 1.2 contrast
boost and the optional extra sharpen, save as optimized PNG, and yield
the output path. -/
def convertBody (P : Prims) (input_path output_path image_type : String)
    (maintain_aspect : Bool) (algorithm : String)
    (enhance_contrast sharpen : Bool) : Except Err String :=
  Except.bind (P.openImage input_path) (fun img0 =>
  Except.bind (if img0.mode ≠ "RGB" then P.convertRGB img0 else Except.ok img0) (fun img =>
  let dims := (DIMENSIONS.lookup image_type).getD (0, 0)
  if dims.1 = 0 ∨ dims.2 = 0 then
    Except.error (.valueError ("Tipo de imagen invalido: " ++ image_type))
  else
    Except.bind
      (if algorithm = "ps2_optimized" then
        resize_ps2_optimized P img dims.1 dims.2 maintain_aspect
      else
        let rm := (ALGORITHM_METHODS.lookup algorithm).getD Kern.lanczos
        if maintain_aspect then resize_with_aspect (P.resample rm) img dims.1 dims.2
        else P.resample rm img dims.1 dims.2)
      (fun scaled =>
    Except.bind (if enhance_contrast then P.contrast scaled (6 / 5 : ℚ)
                 else Except.ok scaled) (fun scaled2 =>
    Except.bind (if sharpen then P.sharpenF scaled2 else Except.ok scaled2) (fun scaled3 =>
    Except.bind (P.save scaled3 output_path) (fun _ =>
    Except.ok output_path))))))

/-- ImageProcessorEnhanced.convert_resize_image: run the conversion body
and convert any exception into the failure tuple (False, str(e)); on
success return (True, output_path).  Nothing escapes this boundary. -/
def convert_resize_image (P : Prims) (input_path output_path image_type : String)
    (maintain_aspect : Bool) (algorithm : String)
    (enhance_contrast sharpen : Bool) : Bool × String :=
  match convertBody P input_path output_path image_type maintain_aspect algorithm
      enhance_contrast sharpen with
  | .ok path => (true, path)
  | .error e => (false, e.message)

/-- A solid-color raster, used to build concrete witnesses. -/
def constImg (w h : Nat) (p : Px) : Img := ⟨w, h, "RGB", fun _ _ => p⟩

/-- A simple concrete instantiation of the imaging primitives in which
every operation succeeds: resampling crops or extends by direct pixel
lookup and the enhancement filters are identities.  Used only to
evaluate the theorems on concrete inputs. -/
def okPrims : Prims where
  resample := fun _ i w h => .ok ⟨w, h, "RGB", fun x y => i.pix x y⟩
  sharpenF := fun i => .ok i
  smoothMore := fun i => .ok i
  contrast := fun i _ => .ok i
  color := fun i _ => .ok i
  toArray := fun i => .ok i
  convertRGB := fun i => .ok ⟨i.width, i.height, "RGB", i.pix⟩
  openImage := fun _ => .ok (constImg 3 2 (10, 10, 10))
  save := fun _ _ => .ok ()

/-- Modelled from the claim wording for the aspect-preserving content
size (spec 4.2): the same ratio test but with round instead of the int
truncation the code performs.  Used only to compare the claim against
the code. -/
def contentSizeRounded (imgW imgH tw th : Nat) : Nat × Nat :=
  let ar : ℚ := (imgW : ℚ) / (imgH : ℚ)
  let tgt : ℚ := (tw : ℚ) / (th : ℚ)
  if ar > tgt then
    (tw, (round ((tw : ℚ) / ar)).toNat)
  else
    ((round ((th : ℚ) * ar)).toNat, th)

/-- Concrete primitives whose sharpen filter always fails. -/
def errSharpenPrims : Prims :=
  { okPrims with sharpenF := fun _ => .error (.libraryError "sharpen failed") }

/-- Concrete primitives whose contrast enhancer always fails. -/
def errContrastPrims : Prims :=
  { okPrims with contrast := fun _ _ => .error (.libraryError "contrast failed") }

/-- Concrete primitives whose saturation enhancer always fails. -/
def errColorPrims : Prims :=
  { okPrims with color := fun _ _ => .error (.libraryError "color failed") }

/-- Concrete primitives whose numpy conversion always fails. -/
def errArrayPrims : Prims :=
  { okPrims with toArray := fun _ => .error (.libraryError "numpy failed") }

/-- Concrete primitives whose resampling always fails. -/
def errResamplePrims : Prims :=
  { okPrims with resample := fun _ _ _ _ => .error (.libraryError "resize failed") }

/-! ### Helper lemmas -/

/-- Characterization of a successful scale_with_aspect: the output is the
centered composite of the resampled content onto a fresh canvas of the
exact target size. -/
lemma scale_with_aspect_ok {scaleFn : Img → Nat → Nat → Except Err Img}
    {image : Img} {tw th : Nat} {bg : Px} {out : Img}
    (hok : scale_with_aspect scaleFn image tw th bg = .ok out) :
    out.width = tw ∧ out.height = th ∧
    ∃ content,
      scaleFn image (contentSize image.width image.height tw th).1
        (contentSize image.width image.height tw th).2 = .ok content ∧
      out = paste (imageNew tw th bg) content
        ((tw - (contentSize image.width image.height tw th).1) / 2)
        ((th - (contentSize image.width image.height tw th).2) / 2) := by
  unfold scale_with_aspect at hok
  split at hok
  · exact absurd hok (by simp)
  · split at hok
    · exact absurd hok (by simp)
    · rename_i resized heq
      injection hok with hout
      subst hout
      exact ⟨rfl, rfl, resized, heq, rfl⟩

/-- The forward form: when the resampling of the content succeeds, the
result of scale_with_aspect is exactly the centered composite. -/
lemma scale_with_aspect_eq_paste {scaleFn : Img → Nat → Nat → Except Err Img}
    {image : Img} {tw th : Nat} {bg : Px} {content : Img}
    (hz : image.height ≠ 0) (hth : th ≠ 0)
    (hc : scaleFn image (contentSize image.width image.height tw th).1
        (contentSize image.width image.height tw th).2 = .ok content) :
    scale_with_aspect scaleFn image tw th bg =
      .ok (paste (imageNew tw th bg) content
        ((tw - (contentSize image.width image.height tw th).1) / 2)
        ((th - (contentSize image.width image.height tw th).2) / 2)) := by
  unfold scale_with_aspect
  rw [if_neg (by tauto)]
  rw [hc]

/-- The processor duplicate _resize_with_aspect is definitionally the
base-class computation with a black background. -/
lemma resize_with_aspect_eq (f : Img → Nat → Nat → Except Err Img)
    (img : Img) (tw th : Nat) :
    resize_with_aspect f img tw th = scale_with_aspect f img tw th (0, 0, 0) := rfl

/-- Membership in the scalers dictionary is exactly membership in the
seven registered method names. -/
lemma lookup_scalers_isSome (P : Prims) (m : String) :
    (((scalers P).lookup m).isSome = true) ↔ m ∈ registeredMethods := by
  constructor
  · intro hs
    by_contra hm
    simp only [registeredMethods, List.mem_cons, List.not_mem_nil, or_false, not_or] at hm
    obtain ⟨h1, h2, h3, h4, h5, h6, h7⟩ := hm
    have b1 : (m == "lanczos") = false := by simp [h1]
    have b2 : (m == "bicubic") = false := by simp [h2]
    have b3 : (m == "bilinear") = false := by simp [h3]
    have b4 : (m == "nearest") = false := by simp [h4]
    have b5 : (m == "box") = false := by simp [h5]
    have b6 : (m == "hamming") = false := by simp [h6]
    have b7 : (m == "ps2_optimized") = false := by simp [h7]
    simp [scalers, List.lookup, b1, b2, b3, b4, b5, b6, b7] at hs
  · intro hm
    simp only [registeredMethods, List.mem_cons, List.not_mem_nil, or_false] at hm
    rcases hm with rfl | rfl | rfl | rfl | rfl | rfl | rfl <;> simp [scalers, List.lookup]

/-- Resolving an explicitly passed registered method keeps it. -/
lemma resolveMethod_some_mem (P : Prims) (mgr : Mgr) {m : String}
    (hm : m ∈ registeredMethods) : resolveMethod P mgr (some m) = m := by
  unfold resolveMethod
  simp only [Option.getD_some]
  rw [if_pos ((lookup_scalers_isSome P m).mpr hm)]

/-- Resolving an explicitly passed unregistered method substitutes the
default. -/
lemma resolveMethod_some_not_mem (P : Prims) (mgr : Mgr) {m : String}
    (hm : m ∉ registeredMethods) :
    resolveMethod P mgr (some m) = mgr.default_method := by
  unfold resolveMethod
  simp only [Option.getD_some]
  rw [if_neg (fun hs => hm ((lookup_scalers_isSome P m).mp hs))]

/-- One unfolding of the recursive scale_image. -/
lemma scale_image_unfold (P : Prims) (mgr : Mgr) (img : Img) (tw th : Nat)
    (method? : Option String) (ma : Bool) (bg : Px) :
    scale_image P mgr img tw th method? ma bg =
      match attemptScale P (resolveMethod P mgr method?) img tw th ma bg with
      | .ok r => .ok r
      | .error e =>
          if _h : resolveMethod P mgr method? ≠ mgr.default_method then
            scale_image P mgr img tw th (some mgr.default_method) ma bg
          else .error e := by
  rw [scale_image]

/-- When the resolved attempt succeeds, scale_image returns its result. -/
lemma scale_image_ok {P : Prims} {mgr : Mgr} {img : Img} {tw th : Nat}
    {method? : Option String} {ma : Bool} {bg : Px} {r : Img}
    (h : attemptScale P (resolveMethod P mgr method?) img tw th ma bg = .ok r) :
    scale_image P mgr img tw th method? ma bg = .ok r := by
  rw [scale_image_unfold, h]

/-- When the resolved attempt fails, scale_image either retries with the
default or re-raises. -/
lemma scale_image_error {P : Prims} {mgr : Mgr} {img : Img} {tw th : Nat}
    {method? : Option String} {ma : Bool} {bg : Px} {e : Err}
    (h : attemptScale P (resolveMethod P mgr method?) img tw th ma bg = .error e) :
    scale_image P mgr img tw th method? ma bg =
      if _h : resolveMethod P mgr method? ≠ mgr.default_method then
        scale_image P mgr img tw th (some mgr.default_method) ma bg
      else .error e := by
  rw [scale_image_unfold, h]

/-- A call that explicitly names the (registered) default method is
exactly one attempt with the default: on failure it re-raises. -/
lemma scale_image_some_default (P : Prims) (mgr : Mgr) (img : Img)
    (tw th : Nat) (ma : Bool) (bg : Px)
    (hd : mgr.default_method ∈ registeredMethods) :
    scale_image P mgr img tw th (some mgr.default_method) ma bg =
      attemptScale P mgr.default_method img tw th ma bg := by
  cases hA : attemptScale P mgr.default_method img tw th ma bg with
  | ok r =>
      exact scale_image_ok (by rw [resolveMethod_some_mem P mgr hd]; exact hA)
  | error e =>
      rw [scale_image_error (by rw [resolveMethod_some_mem P mgr hd]; exact hA)]
      rw [dif_neg (by rw [resolveMethod_some_mem P mgr hd]; simp)]

/-- Inversion of a successful Except bind. -/
lemma except_bind_ok {α β : Type} {x : Except Err α} {f : α → Except Err β} {v : β}
    (h : Except.bind x f = .ok v) : ∃ a, x = .ok a ∧ f a = .ok v := by
  cases x with
  | ok a => exact ⟨a, rfl, h⟩
  | error e => exact absurd h (by simp [Except.bind])

/-- A successful conversion body yields the output path, and can only
happen for a slot present in the dimension table. -/
lemma convertBody_ok {P : Prims} {inp outp ty : String} {ma : Bool}
    {alg : String} {ec sh : Bool} {v : String}
    (h : convertBody P inp outp ty ma alg ec sh = .ok v) :
    v = outp ∧ DIMENSIONS.lookup ty ≠ none := by
  simp only [convertBody] at h
  obtain ⟨img, hopen, h⟩ := except_bind_ok h
  obtain ⟨img2, hconv, h⟩ := except_bind_ok h
  by_cases hdim : ((DIMENSIONS.lookup ty).getD (0, 0)).1 = 0 ∨
      ((DIMENSIONS.lookup ty).getD (0, 0)).2 = 0
  · rw [if_pos hdim] at h
    exact absurd h (by simp)
  · rw [if_neg hdim] at h
    obtain ⟨scaled, hsc, h⟩ := except_bind_ok h
    obtain ⟨s2, hec, h⟩ := except_bind_ok h
    obtain ⟨s3, hsh, h⟩ := except_bind_ok h
    obtain ⟨u, hsave, h⟩ := except_bind_ok h
    refine ⟨by simpa using h.symm, ?_⟩
    intro hnone
    apply hdim
    rw [hnone]
    simp

/-- The scalers dictionary maps ps2_optimized to the PS2 scaler. -/
lemma lookup_scalers_ps2 (P : Prims) :
    (scalers P).lookup "ps2_optimized" = some (ps2Scale P) := by
  simp [scalers, List.lookup]

/-- The dispatcher path for ps2_optimized with maintain_aspect: the whole
PS2 scaler pipeline runs at the fitted content size and its output is
then letterboxed. -/
lemma scale_image_ps2_aspect_helper (P : Prims) (mgr : Mgr) (img : Img)
    (tw th : Nat) (bg : Px) (content : Img)
    (hz : img.height ≠ 0) (hth : th ≠ 0)
    (hc : ps2Scale P img (contentSize img.width img.height tw th).1
        (contentSize img.width img.height tw th).2 = .ok content) :
    scale_image P mgr img tw th (some "ps2_optimized") true bg =
      .ok (paste (imageNew tw th bg) content
        ((tw - (contentSize img.width img.height tw th).1) / 2)
        ((th - (contentSize img.width img.height tw th).2) / 2)) := by
  apply scale_image_ok
  rw [resolveMethod_some_mem P mgr (by decide)]
  unfold attemptScale
  rw [lookup_scalers_ps2 P]
  exact scale_with_aspect_eq_paste hz hth hc

/-! ### Claims -/

/-- C1: For every source image and every target box (TW, TH), and for
every scaling algorithm, scale_with_aspect returns an image whose size is
exactly TW by TH: the resampled content may be smaller and is composited
centered onto a canvas of the target box size filled with the background
color.  (The same holds for the processor duplicate _resize_with_aspect
with its fixed black background.) -/
theorem scale_with_aspect_exact_size
    (scaleFn : Img → Nat → Nat → Except Err Img) (image : Img)
    (tw th : Nat) (bg : Px) (out : Img)
    (hok : scale_with_aspect scaleFn image tw th bg = .ok out) :
    (out.width = tw ∧ out.height = th ∧
      ∃ content,
        scaleFn image (contentSize image.width image.height tw th).1
          (contentSize image.width image.height tw th).2 = .ok content ∧
        out = paste (imageNew tw th bg) content
          ((tw - (contentSize image.width image.height tw th).1) / 2)
          ((th - (contentSize image.width image.height tw th).2) / 2)) ∧
    (∀ out2, resize_with_aspect scaleFn image tw th = .ok out2 →
        out2.width = tw ∧ out2.height = th) :=
  ⟨scale_with_aspect_ok hok,
   fun _ h2 =>
     ⟨(scale_with_aspect_ok (resize_with_aspect_eq _ _ _ _ ▸ h2)).1,
      (scale_with_aspect_ok (resize_with_aspect_eq _ _ _ _ ▸ h2)).2.1⟩⟩

/-- C1 witness: a concrete 3 by 2 source scaled into a 4 by 4 box with a
concrete resampler comes out exactly 4 by 4. -/
theorem scale_with_aspect_exact_size_witness :
    ∃ out, scale_with_aspect (okPrims.resample .lanczos)
        (constImg 3 2 (10, 10, 10)) 4 4 (0, 0, 0) = .ok out ∧
      out.width = 4 ∧ out.height = 4 := by
  have hcs : contentSize 3 2 4 4 = (4, 2) := by
    unfold contentSize
    norm_num
    rfl
  have hok : scale_with_aspect (okPrims.resample .lanczos)
      (constImg 3 2 (10, 10, 10)) 4 4 (0, 0, 0) =
      .ok (paste (imageNew 4 4 (0, 0, 0))
        ⟨4, 2, "RGB", fun x y => (constImg 3 2 (10, 10, 10)).pix x y⟩ 0 1) := by
    unfold scale_with_aspect
    rw [if_neg (by simp [constImg])]
    simp only [constImg]
    rw [show (contentSize 3 2 4 4).1 = 4 from by rw [hcs]]
    rw [show (contentSize 3 2 4 4).2 = 2 from by rw [hcs]]
    rfl
  refine ⟨_, hok, ?_, ?_⟩
  · exact ((scale_with_aspect_exact_size _ _ 4 4 _ _ hok).1).1
  · exact ((scale_with_aspect_exact_size _ _ 4 4 _ _ hok).1).2.1

/-- C2 counterexample: for a 3 by 2 source and a 4 by 4 target box the
code computes content height int(4 / 1.5) = 2, while the claimed
round(4 / 1.5) gives 3; the two content-size computations disagree at
this concrete input. -/
theorem contentSize_round_counterexample :
    contentSize 3 2 4 4 = (4, 2) ∧ contentSizeRounded 3 2 4 4 = (4, 3) ∧
    contentSize 3 2 4 4 ≠ contentSizeRounded 3 2 4 4 := by
  have h1 : contentSize 3 2 4 4 = (4, 2) := by
    unfold contentSize
    norm_num
    rfl
  have h2 : contentSizeRounded 3 2 4 4 = (4, 3) := by
    unfold contentSizeRounded
    norm_num
    rw [round_eq]
    norm_num
    rfl
  refine ⟨h1, h2, ?_⟩
  rw [h1, h2]
  decide

/-- C2 amended: the content size uses int() truncation (the floor), not
rounding: when src_ratio > target_ratio it is (TW, floor(TW * src_h /
src_w)), otherwise (floor(TH * src_w / src_h), TH), and the centering
offsets are the floor divisions ((TW - new_width) / 2,
(TH - new_height) / 2). -/
theorem contentSize_truncates (w h tw th : Nat) (hh : 0 < h) (hth : 0 < th) :
    (contentSize w h tw th =
      if tw * h < w * th then (tw, tw * h / w) else (th * w / h, th)) ∧
    (∀ (f : Img → Nat → Nat → Except Err Img) (img : Img) (bg : Px) (content : Img),
      img.width = w → img.height = h →
      f img (contentSize w h tw th).1 (contentSize w h tw th).2 = .ok content →
      scale_with_aspect f img tw th bg =
        .ok (paste (imageNew tw th bg) content
          ((tw - (contentSize w h tw th).1) / 2)
          ((th - (contentSize w h tw th).2) / 2))) := by
  have hhQ : (0 : ℚ) < (h : ℚ) := by exact_mod_cast hh
  have hthQ : (0 : ℚ) < (th : ℚ) := by exact_mod_cast hth
  constructor
  · unfold contentSize
    by_cases hcond : (w : ℚ) / (h : ℚ) > (tw : ℚ) / (th : ℚ)
    · have hw : 0 < w := by
        by_contra hw0
        push_neg at hw0
        have hw00 : w = 0 := by omega
        subst hw00
        have : (0 : ℚ) ≤ (tw : ℚ) / (th : ℚ) := by positivity
        simp only [Nat.cast_zero, zero_div] at hcond
        linarith
      have hwQ : (0 : ℚ) < (w : ℚ) := by exact_mod_cast hw
      have hcond' : tw * h < w * th := by
        have := (div_lt_div_iff₀ hthQ hhQ).mp hcond
        exact_mod_cast this
      rw [if_pos hcond, if_pos hcond']
      have hfloor : (⌊(tw : ℚ) / ((w : ℚ) / (h : ℚ))⌋).toNat = tw * h / w := by
        rw [Int.floor_toNat]
        rw [show (tw : ℚ) / ((w : ℚ) / (h : ℚ)) = ((tw * h : ℕ) : ℚ) / ((w : ℕ) : ℚ) from by
          push_cast
          rw [div_div_eq_mul_div]]
        exact Nat.floor_div_eq_div _ _
      rw [hfloor]
    · have hcond' : ¬tw * h < w * th := by
        intro hlt
        apply hcond
        rw [gt_iff_lt, div_lt_div_iff₀ hthQ hhQ]
        exact_mod_cast hlt
      rw [if_neg hcond, if_neg hcond']
      have hfloor : (⌊(th : ℚ) * ((w : ℚ) / (h : ℚ))⌋).toNat = th * w / h := by
        rw [Int.floor_toNat]
        rw [show (th : ℚ) * ((w : ℚ) / (h : ℚ)) = ((th * w : ℕ) : ℚ) / ((h : ℕ) : ℚ) from by
          push_cast
          ring]
        exact Nat.floor_div_eq_div _ _
      rw [hfloor]
  · intro f img bg content hiw hih hc
    have hz : img.height ≠ 0 := by omega
    have hc2 : f img (contentSize img.width img.height tw th).1
        (contentSize img.width img.height tw th).2 = .ok content := by
      rw [hiw, hih]
      exact hc
    have h2 := @scale_with_aspect_eq_paste f img tw th bg content hz (by omega) hc2
    rw [hiw, hih] at h2
    exact h2

/-- C2 witness: the amended characterization evaluated at the concrete
source 3 by 2 and target box 4 by 4. -/
theorem contentSize_truncates_witness :
    contentSize 3 2 4 4 =
      if 4 * 2 < 3 * 4 then (4, 4 * 2 / 3) else (4 * 3 / 2, 4) :=
  (contentSize_truncates 3 2 4 4 (by decide) (by decide)).1

/-- C6 counterexample: at a concrete 1 by 1 source, a 2 by 1 box and
background (7, 7, 7), with concrete identity-like primitives, the
dispatcher called with ps2_optimized and maintain_aspect = true does not
equal the section 4.3 pipeline with the aspect path (the processor
_resize_ps2_optimized): the dispatcher letterboxes the quantized content
with the untouched background, while the pipeline quantizes the whole
letterboxed canvas. -/
theorem scale_image_ps2_not_pipeline_counterexample :
    scale_image okPrims Mgr.init (constImg 1 1 (10, 10, 10)) 2 1
        (some "ps2_optimized") true (7, 7, 7) ≠
      resize_ps2_optimized okPrims (constImg 1 1 (10, 10, 10)) 2 1 true := by
  have hcs : contentSize 1 1 2 1 = (1, 1) := by
    unfold contentSize
    norm_num
  have hcs' : contentSize (constImg 1 1 (10, 10, 10)).width
      (constImg 1 1 (10, 10, 10)).height 2 1 = (1, 1) := hcs
  have hps2 : ps2Scale okPrims (constImg 1 1 (10, 10, 10))
      (contentSize (constImg 1 1 (10, 10, 10)).width
        (constImg 1 1 (10, 10, 10)).height 2 1).1
      (contentSize (constImg 1 1 (10, 10, 10)).width
        (constImg 1 1 (10, 10, 10)).height 2 1).2 =
      .ok (quantImg ⟨1, 1, "RGB",
        fun x y => (constImg 1 1 (10, 10, 10)).pix x y⟩) := by
    rw [hcs']
    rfl
  have hL := scale_image_ps2_aspect_helper okPrims Mgr.init
    (constImg 1 1 (10, 10, 10)) 2 1 (7, 7, 7) _ (by decide) (by decide) hps2
  have hstep2 : ps2ResizeStep okPrims (constImg 1 1 (10, 10, 10)) 2 1 true =
      .ok (paste (imageNew 2 1 (0, 0, 0))
        ⟨1, 1, "RGB", fun x y => (constImg 1 1 (10, 10, 10)).pix x y⟩ 0 0) := by
    unfold ps2ResizeStep
    rw [if_pos rfl, resize_with_aspect_eq]
    have hres := @scale_with_aspect_eq_paste (okPrims.resample .lanczos)
      (constImg 1 1 (10, 10, 10)) 2 1 (0, 0, 0)
      ⟨1, 1, "RGB", fun x y => (constImg 1 1 (10, 10, 10)).pix x y⟩
      (by decide) (by decide) (by rw [hcs']; rfl)
    rw [hcs'] at hres
    exact hres
  have hshp : ∀ i, okPrims.sharpenF i = .ok i := fun _ => rfl
  have hcon : ∀ i q, okPrims.contrast i q = .ok i := fun _ _ => rfl
  have hcol : ∀ i q, okPrims.color i q = .ok i := fun _ _ => rfl
  have hsmo : ∀ i, okPrims.smoothMore i = .ok i := fun _ => rfl
  have harr : ∀ i, okPrims.toArray i = .ok i := fun _ => rfl
  have hR : resize_ps2_optimized okPrims (constImg 1 1 (10, 10, 10)) 2 1 true =
      .ok (quantImg (paste (imageNew 2 1 (0, 0, 0))
        ⟨1, 1, "RGB", fun x y => (constImg 1 1 (10, 10, 10)).pix x y⟩ 0 0)) := by
    simp only [resize_ps2_optimized, bind, Except.bind, hshp, hstep2, hcon,
      hcol, hsmo, harr, skipOnError]
    rfl
  rw [hcs'] at hL
  intro heq
  rw [hL, hR] at heq
  injection heq with himg
  have hpx := congrArg (fun i => i.pix 1 0) himg
  exact absurd hpx (by decide)

/-- C6 amended: when the dispatcher is called with ps2_optimized and
maintain_aspect = true, it letterboxes the output of the full PS2 scaler
pipeline run at the fitted content size: the dispatcher wraps the PS2
scale in the generic aspect wrapper instead of forwarding maintain_aspect
into the pipeline, so sharpening, enhancement and quantization apply to
the content only and the letterbox background is composed afterwards,
untouched. -/
theorem scale_image_ps2_letterboxes_content (P : Prims) (mgr : Mgr)
    (img : Img) (tw th : Nat) (bg : Px) (content : Img)
    (hz : img.height ≠ 0) (hth : th ≠ 0)
    (hc : ps2Scale P img (contentSize img.width img.height tw th).1
        (contentSize img.width img.height tw th).2 = .ok content) :
    scale_image P mgr img tw th (some "ps2_optimized") true bg =
      .ok (paste (imageNew tw th bg) content
        ((tw - (contentSize img.width img.height tw th).1) / 2)
        ((th - (contentSize img.width img.height tw th).2) / 2)) ∧
    attemptScale P "ps2_optimized" img tw th true bg =
      scale_with_aspect (ps2Scale P) img tw th bg := by
  refine ⟨scale_image_ps2_aspect_helper P mgr img tw th bg content hz hth hc, ?_⟩
  unfold attemptScale
  rw [lookup_scalers_ps2 P]
  rfl

/-- C6 amended witness: the dispatcher letterboxes the quantized content
onto the background canvas at the concrete 1 by 1 source and 2 by 1
box. -/
theorem scale_image_ps2_letterboxes_content_witness :
    scale_image okPrims Mgr.init (constImg 1 1 (10, 10, 10)) 2 1
        (some "ps2_optimized") true (0, 0, 0) =
      .ok (paste (imageNew 2 1 (0, 0, 0))
        (quantImg ⟨1, 1, "RGB", fun x y => (constImg 1 1 (10, 10, 10)).pix x y⟩)
        ((2 - (contentSize (constImg 1 1 (10, 10, 10)).width
            (constImg 1 1 (10, 10, 10)).height 2 1).1) / 2)
        ((1 - (contentSize (constImg 1 1 (10, 10, 10)).width
            (constImg 1 1 (10, 10, 10)).height 2 1).2) / 2)) :=
  (scale_image_ps2_letterboxes_content okPrims Mgr.init
    (constImg 1 1 (10, 10, 10)) 2 1 (0, 0, 0)
    (quantImg ⟨1, 1, "RGB", fun x y => (constImg 1 1 (10, 10, 10)).pix x y⟩)
    (by decide) (by decide)
    (by
      have hcs : contentSize 1 1 2 1 = (1, 1) := by
        unfold contentSize
        norm_num
      have hcs2 : contentSize (constImg 1 1 (10, 10, 10)).width
          (constImg 1 1 (10, 10, 10)).height 2 1 = (1, 1) := hcs
      rw [hcs2]
      rfl)).1

/-- C8: convert_resize_image never raises past its boundary: every
outcome is a (success, message) pair, a success carries exactly the
output path, an unrecognized slot type yields success = false, and the
supported slots resolve exactly to the fixed dimension table. -/
theorem convert_never_raises (P : Prims) (inp outp ty : String) (ma : Bool)
    (alg : String) (ec sh : Bool) :
    (DIMENSIONS.lookup ty = none →
        (convert_resize_image P inp outp ty ma alg ec sh).1 = false) ∧
    (∀ b s, convert_resize_image P inp outp ty ma alg ec sh = (b, s) →
        b = true → s = outp) ∧
    (DIMENSIONS.lookup "caratula" = some (140, 200) ∧
     DIMENSIONS.lookup "borde" = some (18, 240) ∧
     DIMENSIONS.lookup "contracaratula" = some (242, 344) ∧
     DIMENSIONS.lookup "captura" = some (250, 168) ∧
     DIMENSIONS.lookup "fondo" = some (640, 480) ∧
     DIMENSIONS.lookup "disco" = some (128, 128) ∧
     DIMENSIONS.lookup "logo" = some (300, 125)) ∧
    (∀ e, convertBody P inp outp ty ma alg ec sh = .error e →
        convert_resize_image P inp outp ty ma alg ec sh = (false, e.message)) := by
  refine ⟨?_, ?_, by decide, ?_⟩
  · intro hnone
    unfold convert_resize_image
    cases hB : convertBody P inp outp ty ma alg ec sh with
    | ok v => exact absurd hnone (convertBody_ok hB).2
    | error e => rfl
  · intro b s heq htrue
    unfold convert_resize_image at heq
    cases hB : convertBody P inp outp ty ma alg ec sh with
    | ok v =>
        rw [hB] at heq
        simp only [Prod.mk.injEq] at heq
        rw [← heq.2, (convertBody_ok hB).1]
    | error e =>
        rw [hB] at heq
        simp only [Prod.mk.injEq] at heq
        rw [htrue] at heq
        exact absurd heq.1 (by decide)
  · intro e hB
    unfold convert_resize_image
    rw [hB]

/-- C8 witness: a conversion of an unknown slot type reports failure,
and a successful concrete conversion returns the output path. -/
theorem convert_never_raises_witness :
    (convert_resize_image okPrims "in.png" "out.png" "zzz" true "lanczos"
        false false).1 = false ∧
    ("out.png" : String) = "out.png" :=
  ⟨(convert_never_raises okPrims "in.png" "out.png" "zzz" true "lanczos"
      false false).1 (by decide),
   (convert_never_raises okPrims "in.png" "out.png" "disco" false "nearest"
      false false).2.1 true "out.png" rfl rfl⟩

/-- C3: For every scaling request naming a registered algorithm: a
successful attempt is returned as is; if the attempt raises and the
algorithm is not the default (lanczos), the entire call is retried
exactly once with the default substituted (so the outcome is exactly one
attempt with the default, whose failure propagates); if the algorithm
already equals the default, the exception propagates uncaught.  There is
never more than one retry and never a cascade through other
algorithms. -/
theorem scale_image_fallback_policy (P : Prims) (mgr : Mgr) (img : Img)
    (tw th : Nat) (m : String) (ma : Bool) (bg : Px)
    (hm : m ∈ registeredMethods) (hd : mgr.default_method = "lanczos") :
    (∀ r, attemptScale P m img tw th ma bg = .ok r →
        scale_image P mgr img tw th (some m) ma bg = .ok r) ∧
    (∀ e, attemptScale P m img tw th ma bg = .error e → m ≠ "lanczos" →
        scale_image P mgr img tw th (some m) ma bg =
          attemptScale P "lanczos" img tw th ma bg) ∧
    (∀ e, attemptScale P m img tw th ma bg = .error e → m = "lanczos" →
        scale_image P mgr img tw th (some m) ma bg = .error e) ∧
    (scale_image P mgr img tw th none ma bg =
        scale_image P mgr img tw th (some mgr.current_method) ma bg) := by
  refine ⟨?_, ?_, ?_, ?_⟩
  · intro r hr
    exact scale_image_ok (by rw [resolveMethod_some_mem P mgr hm]; exact hr)
  · intro e he hne
    rw [scale_image_error (by rw [resolveMethod_some_mem P mgr hm]; exact he)]
    rw [dif_pos (by rw [resolveMethod_some_mem P mgr hm, hd]; exact hne)]
    rw [scale_image_some_default P mgr img tw th ma bg (by rw [hd]; decide), hd]
  · intro e he heq
    rw [scale_image_error (by rw [resolveMethod_some_mem P mgr hm]; exact he)]
    rw [dif_neg (by rw [resolveMethod_some_mem P mgr hm, hd, heq]; simp)]
  · have hres : resolveMethod P mgr none = resolveMethod P mgr (some mgr.current_method) := rfl
    cases hA : attemptScale P (resolveMethod P mgr none) img tw th ma bg with
    | ok r =>
        rw [scale_image_ok hA, scale_image_ok (by rw [← hres]; exact hA)]
    | error e =>
        rw [scale_image_error hA]
        conv_rhs => rw [scale_image_error (by rw [← hres]; exact hA)]
        rw [hres]

/-- C3 witness: with primitives whose resampling always fails, a request
for nearest fails, is retried once with lanczos, and the call returns
exactly the outcome of the single lanczos attempt. -/
theorem scale_image_fallback_policy_witness :
    scale_image errResamplePrims Mgr.init (constImg 1 1 (0, 0, 0)) 2 2
        (some "nearest") false (0, 0, 0) =
      attemptScale errResamplePrims "lanczos" (constImg 1 1 (0, 0, 0)) 2 2
        false (0, 0, 0) :=
  (scale_image_fallback_policy errResamplePrims Mgr.init (constImg 1 1 (0, 0, 0))
      2 2 "nearest" false (0, 0, 0) (by decide) rfl).2.1
    (.libraryError "resize failed") rfl (by decide)

/-- C9: A scaling request naming an algorithm that is not one of the
seven registered ones is served exactly as a request for the default
algorithm lanczos (the code logs a warning and substitutes the default);
the returned result is indistinguishable from a lanczos request. -/
theorem scale_image_unknown_uses_default (P : Prims) (mgr : Mgr) (img : Img)
    (tw th : Nat) (m : String) (ma : Bool) (bg : Px)
    (hm : m ∉ registeredMethods) (hd : mgr.default_method = "lanczos") :
    scale_image P mgr img tw th (some m) ma bg =
      scale_image P mgr img tw th (some "lanczos") ma bg := by
  have h1 : resolveMethod P mgr (some m) = "lanczos" := by
    rw [resolveMethod_some_not_mem P mgr hm, hd]
  have h2 : resolveMethod P mgr (some "lanczos") = "lanczos" :=
    resolveMethod_some_mem P mgr (by decide)
  cases hA : attemptScale P "lanczos" img tw th ma bg with
  | ok r =>
      rw [scale_image_ok (by rw [h1]; exact hA),
          scale_image_ok (by rw [h2]; exact hA)]
  | error e =>
      rw [scale_image_error (by rw [h1]; exact hA)]
      rw [dif_neg (by rw [h1, hd]; simp)]
      rw [scale_image_error (by rw [h2]; exact hA)]
      rw [dif_neg (by rw [h2, hd]; simp)]

/-- C9 witness: with concrete primitives, a request naming the unknown
algorithm foo returns exactly what the lanczos request returns. -/
theorem scale_image_unknown_uses_default_witness :
    scale_image okPrims Mgr.init (constImg 1 1 (0, 0, 0)) 2 2 (some "foo")
        false (0, 0, 0) =
      scale_image okPrims Mgr.init (constImg 1 1 (0, 0, 0)) 2 2 (some "lanczos")
        false (0, 0, 0) :=
  scale_image_unknown_uses_default okPrims Mgr.init (constImg 1 1 (0, 0, 0))
    2 2 "foo" false (0, 0, 0) (by decide) rfl

/-- C10: The manager selection starts as lanczos; set_scaling_method
accepts and records exactly the registered methods, returns false and
leaves the selection unchanged for any other value, and therefore the
current selection of any reachable manager state is always one of the
seven registered methods. -/
theorem manager_selection_invariant :
    Mgr.init.current_method = "lanczos" ∧
    (∀ (P : Prims) (mgr : Mgr) (m : String), m ∈ registeredMethods →
        set_scaling_method P mgr m = (true, { mgr with current_method := m })) ∧
    (∀ (P : Prims) (mgr : Mgr) (m : String), m ∉ registeredMethods →
        set_scaling_method P mgr m = (false, mgr)) ∧
    (∀ (P : Prims) (ms : List String),
        (applyMethods P ms Mgr.init).current_method ∈ registeredMethods) := by
  have hset : ∀ (P : Prims) (mgr : Mgr) (m : String), m ∈ registeredMethods →
      set_scaling_method P mgr m = (true, { mgr with current_method := m }) := by
    intro P mgr m hm
    unfold set_scaling_method
    rw [if_pos ((lookup_scalers_isSome P m).mpr hm)]
  have hnoset : ∀ (P : Prims) (mgr : Mgr) (m : String), m ∉ registeredMethods →
      set_scaling_method P mgr m = (false, mgr) := by
    intro P mgr m hm
    unfold set_scaling_method
    rw [if_neg (fun hs => hm ((lookup_scalers_isSome P m).mp hs))]
  have hinv : ∀ (P : Prims) (ms : List String) (mgr : Mgr),
      mgr.current_method ∈ registeredMethods →
      (applyMethods P ms mgr).current_method ∈ registeredMethods := by
    intro P ms
    induction ms with
    | nil =>
        intro mgr hc
        simpa [applyMethods] using hc
    | cons m rest ih =>
        intro mgr hc
        have hstep : ((set_scaling_method P mgr m).2).current_method ∈
            registeredMethods := by
          by_cases hm : m ∈ registeredMethods
          · rw [hset P mgr m hm]
            simpa using hm
          · rw [hnoset P mgr m hm]
            simpa using hc
        have := ih ((set_scaling_method P mgr m).2) hstep
        simpa [applyMethods] using this
  exact ⟨rfl, hset, hnoset, fun P ms => hinv P ms Mgr.init (by decide)⟩

/-- C10 witness: setting the registered method nearest succeeds and
records it, setting the unknown foo fails and leaves the state
unchanged, and a concrete call sequence keeps the selection
registered. -/
theorem manager_selection_invariant_witness :
    set_scaling_method okPrims Mgr.init "nearest" =
      (true, { Mgr.init with current_method := "nearest" }) ∧
    set_scaling_method okPrims Mgr.init "foo" = (false, Mgr.init) ∧
    (applyMethods okPrims ["bicubic", "foo"] Mgr.init).current_method ∈
      registeredMethods :=
  ⟨manager_selection_invariant.2.1 okPrims Mgr.init "nearest" (by decide),
   manager_selection_invariant.2.2.1 okPrims Mgr.init "foo" (by decide),
   manager_selection_invariant.2.2.2 okPrims ["bicubic", "foo"]⟩

/-- C4: For every RGB pixel entering the quantization step of the PS2
pipeline, the quantized output pixel has its red channel a multiple of
8, green a multiple of 4, blue a multiple of 8, and every channel in
[0, 255]. -/
theorem ps2_quantization_range (r g b : Nat)
    (hr : r ≤ 255) (hg : g ≤ 255) (hb : b ≤ 255) :
    (quantPx (r, g, b)).1 % 8 = 0 ∧ (quantPx (r, g, b)).1 ≤ 255 ∧
    (quantPx (r, g, b)).2.1 % 4 = 0 ∧ (quantPx (r, g, b)).2.1 ≤ 255 ∧
    (quantPx (r, g, b)).2.2 % 8 = 0 ∧ (quantPx (r, g, b)).2.2 ≤ 255 := by
  simp only [quantPx, quantR, quantG, quantB]
  refine ⟨?_, ?_, ?_, ?_, ?_, ?_⟩ <;> omega

/-- C4 witness: the quantization of the concrete pixel (252, 255, 7)
satisfies the divisibility and range bounds. -/
theorem ps2_quantization_range_witness :
    (quantPx (252, 255, 7)).1 % 8 = 0 ∧ (quantPx (252, 255, 7)).1 ≤ 255 ∧
    (quantPx (252, 255, 7)).2.1 % 4 = 0 ∧ (quantPx (252, 255, 7)).2.1 ≤ 255 ∧
    (quantPx (252, 255, 7)).2.2 % 8 = 0 ∧ (quantPx (252, 255, 7)).2.2 ≤ 255 :=
  ps2_quantization_range 252 255 7 (by decide) (by decide) (by decide)

/-- C7: In the PS2 pipeline (_resize_ps2_optimized), a failure of the
sharpen step (1) or the resize step (2) propagates; a failure of the
contrast step (3) or of the saturation step (4) is skipped, the pipeline
behaving exactly as if that step were the identity; a failure of the
smoothing step (5) propagates; and a failure of the quantization step
(6) makes the pipeline return the step-5 (pre-quantization) result. -/
theorem ps2_pipeline_error_semantics (P : Prims) (img : Img) (tw th : Nat)
    (ma : Bool) :
    (∀ e, P.sharpenF img = .error e →
        resize_ps2_optimized P img tw th ma = .error e) ∧
    (∀ s1 e, P.sharpenF img = .ok s1 →
        ps2ResizeStep P s1 tw th ma = .error e →
        resize_ps2_optimized P img tw th ma = .error e) ∧
    (∀ s1 s2 e, P.sharpenF img = .ok s1 →
        ps2ResizeStep P s1 tw th ma = .ok s2 →
        P.contrast s2 (11 / 10 : ℚ) = .error e →
        resize_ps2_optimized P img tw th ma =
          resize_ps2_optimized { P with contrast := fun i _ => .ok i } img tw th ma) ∧
    (∀ s1 s2 e, P.sharpenF img = .ok s1 →
        ps2ResizeStep P s1 tw th ma = .ok s2 →
        P.color (skipOnError (P.contrast s2 (11 / 10 : ℚ)) s2) (23 / 20 : ℚ) = .error e →
        resize_ps2_optimized P img tw th ma =
          resize_ps2_optimized { P with color := fun i _ => .ok i } img tw th ma) ∧
    (∀ s1 s2 e, P.sharpenF img = .ok s1 →
        ps2ResizeStep P s1 tw th ma = .ok s2 →
        P.smoothMore (skipOnError
            (P.color (skipOnError (P.contrast s2 (11 / 10 : ℚ)) s2) (23 / 20 : ℚ))
            (skipOnError (P.contrast s2 (11 / 10 : ℚ)) s2)) = .error e →
        resize_ps2_optimized P img tw th ma = .error e) ∧
    (∀ s1 s2 s5 e, P.sharpenF img = .ok s1 →
        ps2ResizeStep P s1 tw th ma = .ok s2 →
        P.smoothMore (skipOnError
            (P.color (skipOnError (P.contrast s2 (11 / 10 : ℚ)) s2) (23 / 20 : ℚ))
            (skipOnError (P.contrast s2 (11 / 10 : ℚ)) s2)) = .ok s5 →
        P.toArray s5 = .error e →
        resize_ps2_optimized P img tw th ma = .ok s5) := by
  refine ⟨?_, ?_, ?_, ?_, ?_, ?_⟩
  · intro e h1
    simp only [resize_ps2_optimized, bind, Except.bind, h1]
  · intro s1 e h1 h2
    simp only [resize_ps2_optimized, bind, Except.bind, h1, h2]
  · intro s1 s2 e h1 h2 hc
    simp only [resize_ps2_optimized, bind, Except.bind, h1]
    rw [show ps2ResizeStep { P with contrast := fun i _ => .ok i } s1 tw th ma =
          ps2ResizeStep P s1 tw th ma from rfl]
    simp only [h2, hc, skipOnError]
  · intro s1 s2 e h1 h2 hcol
    simp only [skipOnError] at hcol
    simp only [resize_ps2_optimized, bind, Except.bind, h1]
    rw [show ps2ResizeStep { P with color := fun i _ => .ok i } s1 tw th ma =
          ps2ResizeStep P s1 tw th ma from rfl]
    simp only [h2, hcol, skipOnError]
  · intro s1 s2 e h1 h2 hs
    simp only [resize_ps2_optimized, bind, Except.bind, h1, h2, skipOnError] at hs ⊢
    simp only [hs]
  · intro s1 s2 s5 e h1 h2 hs ha
    simp only [resize_ps2_optimized, bind, Except.bind, h1, h2, skipOnError] at hs ⊢
    simp only [hs, ha]
    rfl

/-- C7 witness: concrete primitives exercising the skip of a failing
contrast step, the skip of a failing saturation step, the propagation of
a failing sharpen step, and the pre-quantization return on a failing
quantization step. -/
theorem ps2_pipeline_error_semantics_witness :
    resize_ps2_optimized errContrastPrims (constImg 2 2 (9, 9, 9)) 2 2 false =
      resize_ps2_optimized { errContrastPrims with contrast := fun i _ => .ok i }
        (constImg 2 2 (9, 9, 9)) 2 2 false ∧
    resize_ps2_optimized errColorPrims (constImg 2 2 (9, 9, 9)) 2 2 false =
      resize_ps2_optimized { errColorPrims with color := fun i _ => .ok i }
        (constImg 2 2 (9, 9, 9)) 2 2 false ∧
    resize_ps2_optimized errSharpenPrims (constImg 2 2 (9, 9, 9)) 2 2 false =
      .error (.libraryError "sharpen failed") ∧
    resize_ps2_optimized errArrayPrims (constImg 2 2 (9, 9, 9)) 2 2 false =
      .ok ⟨2, 2, "RGB", fun x y => (constImg 2 2 (9, 9, 9)).pix x y⟩ :=
  ⟨(ps2_pipeline_error_semantics errContrastPrims (constImg 2 2 (9, 9, 9)) 2 2
      false).2.2.1 (constImg 2 2 (9, 9, 9))
      ⟨2, 2, "RGB", fun x y => (constImg 2 2 (9, 9, 9)).pix x y⟩
      (.libraryError "contrast failed") rfl rfl rfl,
   (ps2_pipeline_error_semantics errColorPrims (constImg 2 2 (9, 9, 9)) 2 2
      false).2.2.2.1 (constImg 2 2 (9, 9, 9))
      ⟨2, 2, "RGB", fun x y => (constImg 2 2 (9, 9, 9)).pix x y⟩
      (.libraryError "color failed") rfl rfl rfl,
   (ps2_pipeline_error_semantics errSharpenPrims (constImg 2 2 (9, 9, 9)) 2 2
      false).1 (.libraryError "sharpen failed") rfl,
   (ps2_pipeline_error_semantics errArrayPrims (constImg 2 2 (9, 9, 9)) 2 2
      false).2.2.2.2.2 (constImg 2 2 (9, 9, 9))
      ⟨2, 2, "RGB", fun x y => (constImg 2 2 (9, 9, 9)).pix x y⟩
      ⟨2, 2, "RGB", fun x y => (constImg 2 2 (9, 9, 9)).pix x y⟩
      (.libraryError "numpy failed") rfl rfl rfl rfl⟩

/-- C5: The quantization step does not clamp: for red 252 the rounded
multiple reaches 256 (numpy rounds 31.5 to the even 32), and the stored
uint8 channel is 256 reduced modulo 256, that is 0, not 255. -/
theorem ps2_quantization_wraps_at_top :
    roundHalfEvenDiv 252 8 * 8 = 256 ∧
    quantR 252 = 256 % 256 ∧ quantR 252 = 0 ∧ quantR 252 ≠ 255 := by decide

end OPL
